import Mathlib

/-!
Verification of the kubectl-ui command execution and transcript core.

The Go sources (`app.go`, `kubectl_runner.go`, `kubectl_parse.go`, the service
methods file and the shared result types) are shallowly embedded below:

* pure helpers (validators, `withContext`, `record`, `formatAge`, the
  decoders) are translated function by function;
* `encoding/json` unmarshalling into the three target struct shapes is
  modelled by an executable JSON reader (`jsonParse`) plus per-struct decode
  functions following Go's documented unmarshal semantics (null is a no-op,
  case-insensitive field matching, pointers become `Option`, unknown fields
  are ignored);
* `formatAge`'s arithmetic is float64 in Go (`Duration.Seconds`,
  `Minutes`, `Hours` and the bucket divisions); it is modelled exactly by
  IEEE-754 binary64 rounding (round to nearest, ties to even) over
  unreduced integer fractions;
* the external process run (`KubectlRunner.Run`) takes the observed process
  outcome as an explicit input (`ProcOutcome`), since the process itself is
  outside the program;
* each `App` service method becomes a function from an abstract process
  environment and a transcript to the produced envelope, the new transcript
  and the list of runner invocations it made.
-/

namespace KubectlUI

/-! ## Result envelope and view records (shared result types file) -/

structure KNamespace where
  name : String
deriving Repr, DecidableEq

structure Pod where
  name : String
  status : String
  ready : String
  restarts : Int
  age : String
  node : String
  hasOwner : Bool
deriving Repr, DecidableEq

/-- The dynamically typed `ParsedData interface{}` field, as a sum of the
payload shapes the service actually stores. -/
inductive ParsedData where
  | contexts (cs : List String)
  | currentContext (s : String)
  | namespaces (ns : List KNamespace)
  | pods (ps : List Pod)
deriving Repr, DecidableEq

structure CommandResult where
  command : String
  stdout : String
  stderr : String
  exitCode : Int
  durationMs : Int
  parsedData : Option ParsedData
deriving Repr, DecidableEq

/-! ## Character helpers (ASCII, used by the validation regexes) -/

def isLowerAlnum (c : Char) : Bool :=
  (97 ≤ c.toNat && c.toNat ≤ 122) || (48 ≤ c.toNat && c.toNat ≤ 57)

def isAsciiAlnum (c : Char) : Bool :=
  (97 ≤ c.toNat && c.toNat ≤ 122) || (65 ≤ c.toNat && c.toNat ≤ 90) ||
    (48 ≤ c.toNat && c.toNat ≤ 57)

/-! ## Input validation (`kubectl_runner.go`) -/

/-- The regex `^[a-z0-9]([-a-z0-9]*[a-z0-9])?$`. -/
def dnsLabelMatch (s : String) : Bool :=
  match s.data with
  | [] => false
  | c :: rest =>
    isLowerAlnum c &&
      (match rest.getLast? with
       | none => true
       | some d =>
         isLowerAlnum d && rest.dropLast.all (fun x => x == '-' || isLowerAlnum x))

/-- The context-name regex: an ASCII alphanumeric head, then any number of
characters that are ASCII alphanumeric or one of `.` `_` `:` `@` `/` `-`. -/
def safeContextMatch (s : String) : Bool :=
  match s.data with
  | [] => false
  | c :: rest =>
    isAsciiAlnum c &&
      rest.all (fun x =>
        isAsciiAlnum x || x == '.' || x == '_' || x == ':' || x == '@' ||
          x == '/' || x == '-')

def validateNamespace (name : String) : Option String :=
  if name.length = 0 then some "namespace is required"
  else if name.length > 253 ∨ dnsLabelMatch name = false then
    some "invalid namespace name"
  else none

def validatePodName (name : String) : Option String :=
  if name.length = 0 then some "pod name is required"
  else if name.length > 253 ∨ dnsLabelMatch name = false then
    some "invalid pod name"
  else none

/-- `strings.HasPrefix name "-"`. -/
def startsWithDash (s : String) : Bool :=
  match s.data with
  | '-' :: _ => true
  | _ => false

def validateContextName (name : String) : Option String :=
  if name = "" then none
  else if startsWithDash name then some "invalid context name"
  else if name.length > 253 ∨ safeContextMatch name = false then
    some "invalid context name"
  else none

def withContext (args : List String) (contextName : String) :
    Except String (List String) :=
  match validateContextName contextName with
  | some e => .error e
  | none =>
    if contextName = "" then .ok args
    else .ok ("--context" :: contextName :: args)

/-! ## Transcript buffer (`app.go`, `record`) -/

def record (transcript : List CommandResult) (result : CommandResult) :
    List CommandResult :=
  let t := transcript ++ [result]
  if t.length > 200 then t.drop (t.length - 200) else t

/-! ## Age formatting (`kubectl_parse.go`, `formatAge`) -/

/-! ## Exact IEEE-754 binary64 model (normal range, round to nearest even)

Go's `Duration.Seconds/Minutes/Hours` and `formatAge`'s bucket values are
computed in float64. Float values and intermediate exact rationals are
represented as unreduced fractions `Frac` (numerator `Int`, positive
denominator `Nat`); `fl` rounds an exact rational to the nearest binary64
(ties to even mantissa). All inputs stay far inside the normal range, so
subnormals and overflow never arise. -/

/-- Fuel-bounded `⌊log2 n⌋` (the values here are far below `2^500`). -/
def natLog2F : Nat → Nat → Nat
  | 0, _ => 0
  | fuel + 1, n => if 2 ≤ n then natLog2F fuel (n / 2) + 1 else 0

structure Frac where
  num : Int
  den : Nat
deriving Repr, DecidableEq

def Frac.ofInt (n : Int) : Frac := ⟨n, 1⟩

def Frac.add (a b : Frac) : Frac :=
  ⟨a.num * (b.den : Int) + b.num * (a.den : Int), a.den * b.den⟩

def Frac.div (a b : Frac) : Frac :=
  ⟨a.num * (b.den : Int), a.den * b.num.toNat⟩

def Frac.neg (a : Frac) : Frac := ⟨-a.num, a.den⟩

/-- `⌊log2 q⌋` for a positive fraction. -/
def Frac.log2floor (q : Frac) : Int :=
  if q.den ≤ q.num.toNat then (natLog2F 500 (q.num.toNat / q.den) : Int)
  else
    let k := natLog2F 500 (q.den / q.num.toNat)
    if q.num.toNat * 2 ^ k = q.den then -(k : Int) else -(k : Int) - 1

/-- Round a positive rational to the nearest binary64, ties to even. -/
def flPos (q : Frac) : Frac :=
  let e : Int := q.log2floor - 52
  let sNum : Nat := q.num.toNat * (if e < 0 then 2 ^ (-e).toNat else 1)
  let sDen : Nat := q.den * (if 0 ≤ e then 2 ^ e.toNat else 1)
  let n : Nat := sNum / sDen
  let r : Nat := sNum % sDen
  let m : Nat :=
    if sDen < 2 * r then n + 1
    else if 2 * r < sDen then n
    else if n % 2 = 0 then n else n + 1
  if 0 ≤ e then ⟨(m * 2 ^ e.toNat : Nat), 1⟩ else ⟨(m : Int), 2 ^ (-e).toNat⟩

/-- Round an exact rational to the nearest binary64 (sign-symmetric). -/
def fl (q : Frac) : Frac :=
  if q.num = 0 then ⟨0, 1⟩
  else if q.num < 0 then (flPos ⟨-q.num, q.den⟩).neg
  else flPos q

/-- Go's `int(f)`: truncation toward zero. -/
def f64ToInt (q : Frac) : Int := q.num.tdiv (q.den : Int)

/-- `Duration.Seconds`: `float64(d/1e9) + float64(d%1e9)/1e9`. -/
def durSeconds (d : Int) : Frac :=
  let sec := d.tdiv 1000000000
  let nsec := d.tmod 1000000000
  fl ((fl (Frac.ofInt sec)).add
    (fl ((fl (Frac.ofInt nsec)).div (Frac.ofInt 1000000000))))

/-- `Duration.Minutes`. -/
def durMinutes (d : Int) : Frac :=
  let mn := d.tdiv 60000000000
  let nsec := d.tmod 60000000000
  fl ((fl (Frac.ofInt mn)).add
    (fl ((fl (Frac.ofInt nsec)).div (Frac.ofInt 60000000000))))

/-- `Duration.Hours`. -/
def durHours (d : Int) : Frac :=
  let hr := d.tdiv 3600000000000
  let nsec := d.tmod 3600000000000
  fl ((fl (Frac.ofInt hr)).add
    (fl ((fl (Frac.ofInt nsec)).div (Frac.ofInt 3600000000000))))

/-- `formatAge`: bucket selection compares the int64 nanosecond duration
against exact integer thresholds; the value in each bucket truncates the
float64 `d.Seconds()`, `d.Minutes()`, `d.Hours()` (or `Hours` divided by
24, 24*7, 24*30 in float64) toward zero. -/
def formatAge (d : Int) : String :=
  if d < 60 * 1000000000 then toString (f64ToInt (durSeconds d)) ++ "s"
  else if d < 3600 * 1000000000 then toString (f64ToInt (durMinutes d)) ++ "m"
  else if d < 86400 * 1000000000 then toString (f64ToInt (durHours d)) ++ "h"
  else if d < 7 * 86400 * 1000000000 then
    toString (f64ToInt (fl ((durHours d).div (Frac.ofInt 24)))) ++ "d"
  else if d < 30 * 86400 * 1000000000 then
    toString (f64ToInt (fl ((durHours d).div (Frac.ofInt 168)))) ++ "w"
  else toString (f64ToInt (fl ((durHours d).div (Frac.ofInt 720)))) ++ "mo"

/-! ## JSON values and the `encoding/json` syntax layer

`Json.num` keeps the numeric literal as written, matching the library's
behaviour of deciding integer-ness from the literal when filling an `int`
field. -/

inductive Json where
  | null
  | bool (b : Bool)
  | num (lit : String)
  | str (s : String)
  | arr (items : List Json)
  | obj (fields : List (String × Json))
deriving Repr

def isJsonWs (c : Char) : Bool :=
  c == ' ' || c == '\t' || c == '\n' || c == '\r'

def skipWs : List Char → List Char
  | c :: cs => if isJsonWs c then skipWs cs else c :: cs
  | [] => []

def hexVal (c : Char) : Option Nat :=
  if 48 ≤ c.toNat && c.toNat ≤ 57 then some (c.toNat - 48)
  else if 97 ≤ c.toNat && c.toNat ≤ 102 then some (c.toNat - 87)
  else if 65 ≤ c.toNat && c.toNat ≤ 70 then some (c.toNat - 55)
  else none

/-- Body of a JSON string, after the opening quote. -/
def pStringAux (acc : List Char) : List Char → Except String (String × List Char)
  | [] => .error "unexpected end of JSON input"
  | '"' :: cs => .ok (⟨acc.reverse⟩, cs)
  | '\\' :: cs =>
    match cs with
    | [] => .error "unexpected end of JSON input"
    | 'u' :: cs2 =>
      match cs2 with
      | a :: b :: c :: d :: cs3 =>
        match hexVal a, hexVal b, hexVal c, hexVal d with
        | some ha, some hb, some hc, some hd =>
          pStringAux (Char.ofNat (((ha * 16 + hb) * 16 + hc) * 16 + hd) :: acc) cs3
        | _, _, _, _ => .error "invalid character in string escape code"
      | _ => .error "unexpected end of JSON input"
    | e :: cs2 =>
      if e == '"' then pStringAux ('"' :: acc) cs2
      else if e == '\\' then pStringAux ('\\' :: acc) cs2
      else if e == '/' then pStringAux ('/' :: acc) cs2
      else if e == 'b' then pStringAux (Char.ofNat 8 :: acc) cs2
      else if e == 'f' then pStringAux (Char.ofNat 12 :: acc) cs2
      else if e == 'n' then pStringAux ('\n' :: acc) cs2
      else if e == 'r' then pStringAux (Char.ofNat 13 :: acc) cs2
      else if e == 't' then pStringAux ('\t' :: acc) cs2
      else .error "invalid character in string escape code"
  | c :: cs =>
    if c.toNat < 32 then .error "invalid character in string literal"
    else pStringAux (c :: acc) cs

def takeDigits : List Char → List Char × List Char
  | c :: cs =>
    if c.isDigit then
      let (ds, rest) := takeDigits cs
      (c :: ds, rest)
    else ([], c :: cs)
  | [] => ([], [])

/-- A JSON numeric literal (RFC 8259 grammar), returned as written. -/
def pNumber (cs : List Char) : Except String (String × List Char) :=
  let (sign, cs1) :=
    match cs with
    | '-' :: r => (['-'], r)
    | _ => (([] : List Char), cs)
  match cs1 with
  | c :: r =>
    if c == '0' ∨ (c.isDigit ∧ c ≠ '0') then
      let (intPart, rest0) :=
        if c == '0' then (['0'], r)
        else
          let (ds, rest) := takeDigits r
          (c :: ds, rest)
      let (fracPart, rest1) :=
        match rest0 with
        | '.' :: r2 =>
          let (ds, rest) := takeDigits r2
          (('.' :: ds, rest) : List Char × List Char)
        | _ => ([], rest0)
      if fracPart = ['.'] then .error "invalid number literal"
      else
        let (expPart, rest2) :=
          match rest1 with
          | e :: r3 =>
            if e == 'e' ∨ e == 'E' then
              let (esign, r4) :=
                match r3 with
                | '+' :: r5 => (['+'], r5)
                | '-' :: r5 => (['-'], r5)
                | _ => (([] : List Char), r3)
              let (ds, rest) := takeDigits r4
              (e :: (esign ++ ds), rest)
            else ([], rest1)
          | _ => ([], rest1)
        if expPart.length = 1 ∨ expPart.length = 2 ∧ expPart.all (fun x => !x.isDigit)
        then .error "invalid number literal"
        else .ok (⟨sign ++ intPart ++ fracPart ++ expPart⟩, rest2)
    else .error "invalid number literal"
  | [] => .error "unexpected end of JSON input"

mutual

/-- One JSON value, fuel-bounded so the recursion is structural. -/
def pVal : Nat → List Char → Except String (Json × List Char)
  | 0, _ => .error "JSON value nested too deeply"
  | fuel + 1, cs =>
    match skipWs cs with
    | [] => .error "unexpected end of JSON input"
    | c :: cs1 =>
      if c == '"' then
        match pStringAux [] cs1 with
        | .error e => .error e
        | .ok (s, r) => .ok (Json.str s, r)
      else if c == '{' then pObj fuel cs1 []
      else if c == '[' then pArr fuel cs1 []
      else if c == 't' then
        match cs1 with
        | 'r' :: 'u' :: 'e' :: r => .ok (Json.bool true, r)
        | _ => .error "invalid character looking for beginning of value"
      else if c == 'f' then
        match cs1 with
        | 'a' :: 'l' :: 's' :: 'e' :: r => .ok (Json.bool false, r)
        | _ => .error "invalid character looking for beginning of value"
      else if c == 'n' then
        match cs1 with
        | 'u' :: 'l' :: 'l' :: r => .ok (Json.null, r)
        | _ => .error "invalid character looking for beginning of value"
      else if c == '-' || c.isDigit then
        match pNumber (c :: cs1) with
        | .error e => .error e
        | .ok (lit, r) => .ok (Json.num lit, r)
      else .error "invalid character looking for beginning of value"

/-- Array elements after `[`; `acc` holds parsed elements in reverse. -/
def pArr : Nat → List Char → List Json → Except String (Json × List Char)
  | 0, _, _ => .error "JSON value nested too deeply"
  | fuel + 1, cs, acc =>
    match skipWs cs with
    | ']' :: r =>
      if acc.isEmpty then .ok (Json.arr [], r)
      else .error "invalid character looking for beginning of value"
    | cs1 =>
      match pVal fuel cs1 with
      | .error e => .error e
      | .ok (v, r) =>
        match skipWs r with
        | ',' :: r2 => pArr fuel r2 (v :: acc)
        | ']' :: r2 => .ok (Json.arr (v :: acc).reverse, r2)
        | _ => .error "invalid character after array element"

/-- Object members after `{`; `acc` holds parsed fields in reverse. -/
def pObj : Nat → List Char → List (String × Json) →
    Except String (Json × List Char)
  | 0, _, _ => .error "JSON value nested too deeply"
  | fuel + 1, cs, acc =>
    match skipWs cs with
    | '}' :: r =>
      if acc.isEmpty then .ok (Json.obj [], r)
      else .error "invalid character looking for beginning of object key string"
    | '"' :: cs1 =>
      match pStringAux [] cs1 with
      | .error e => .error e
      | .ok (k, r) =>
        match skipWs r with
        | ':' :: r2 =>
          match pVal fuel r2 with
          | .error e => .error e
          | .ok (v, r3) =>
            match skipWs r3 with
            | ',' :: r4 => pObj fuel r4 ((k, v) :: acc)
            | '}' :: r4 => .ok (Json.obj ((k, v) :: acc).reverse, r4)
            | _ => .error "invalid character after object key:value pair"
        | _ => .error "invalid character after object key"
    | _ => .error "invalid character looking for beginning of object key string"

end

/-- `json.Unmarshal`'s syntax phase: exactly one JSON value, possibly
surrounded by whitespace. -/
def jsonParse (s : String) : Except String Json :=
  match pVal (2 * s.data.length + 8) s.data with
  | .error e => .error e
  | .ok (v, rest) =>
    match skipWs rest with
    | [] => .ok v
    | _ => .error "invalid character after top-level value"

/-! ## Decoded struct shapes (`kubectl_parse.go` type declarations) -/

structure NsItemMeta where
  name : String
deriving Repr, DecidableEq

structure NsItem where
  metadata : NsItemMeta
deriving Repr, DecidableEq

structure NamespaceList where
  items : List NsItem
deriving Repr, DecidableEq

structure CtxEntry where
  name : String
deriving Repr, DecidableEq

structure KubeConfigView where
  contexts : List CtxEntry
deriving Repr, DecidableEq

structure OwnerRef where
  kind : String
deriving Repr, DecidableEq

/-- `metadata` of a pod item. `creationTimestamp` is the decoded `time.Time`
as Unix nanoseconds, with `none` standing for the zero time. -/
structure PodMeta where
  name : String
  creationTimestamp : Option Int
  ownerReferences : List OwnerRef
deriving Repr, DecidableEq

structure ReasonState where
  reason : String
deriving Repr, DecidableEq

structure ContainerState where
  waiting : Option ReasonState
  terminated : Option ReasonState
deriving Repr, DecidableEq

structure ContainerStatus where
  ready : Bool
  restartCount : Int
  state : ContainerState
deriving Repr, DecidableEq

structure PodStatus where
  phase : String
  reason : String
  nodeName : String
  containerStatuses : List ContainerStatus
deriving Repr, DecidableEq

structure PodItem where
  metadata : PodMeta
  status : PodStatus
deriving Repr, DecidableEq

structure PodList where
  items : List PodItem
deriving Repr, DecidableEq

def NsItemMeta.zero : NsItemMeta := ⟨""⟩
def NsItem.zero : NsItem := ⟨NsItemMeta.zero⟩
def NamespaceList.zero : NamespaceList := ⟨[]⟩
def CtxEntry.zero : CtxEntry := ⟨""⟩
def KubeConfigView.zero : KubeConfigView := ⟨[]⟩
def OwnerRef.zero : OwnerRef := ⟨""⟩
def PodMeta.zero : PodMeta := ⟨"", none, []⟩
def ReasonState.zero : ReasonState := ⟨""⟩
def ContainerState.zero : ContainerState := ⟨none, none⟩
def ContainerStatus.zero : ContainerStatus := ⟨false, 0, ContainerState.zero⟩
def PodStatus.zero : PodStatus := ⟨"", "", "", []⟩
def PodItem.zero : PodItem := ⟨PodMeta.zero, PodStatus.zero⟩
def PodList.zero : PodList := ⟨[]⟩

/-! ## `encoding/json` value-to-struct phase

Unmarshal semantics for the target types: `null` leaves the current value
(except for pointers, which it sets to nil), field names match exactly or
ASCII case-insensitively, unknown fields are ignored, and a shape mismatch
is an error. -/

def typeName : Json → String
  | .null => "null"
  | .bool _ => "bool"
  | .num _ => "number"
  | .str _ => "string"
  | .arr _ => "array"
  | .obj _ => "object"

def unmarshalErr (j : Json) (target : String) : String :=
  "json: cannot unmarshal " ++ typeName j ++ " into Go value of type " ++ target

def lowerChar (c : Char) : Char :=
  if 65 ≤ c.toNat && c.toNat ≤ 90 then Char.ofNat (c.toNat + 32) else c

def keyMatches (k f : String) : Bool :=
  k == f || k.data.map lowerChar == f.data.map lowerChar

def decStringInto (cur : String) : Json → Except String String
  | .null => .ok cur
  | .str s => .ok s
  | j => .error (unmarshalErr j "string")

def decBoolInto (cur : Bool) : Json → Except String Bool
  | .null => .ok cur
  | .bool b => .ok b
  | j => .error (unmarshalErr j "bool")

def digitsToNatAux (acc : Nat) : List Char → Option Nat
  | [] => some acc
  | c :: cs => if c.isDigit then digitsToNatAux (acc * 10 + (c.toNat - 48)) cs else none

def digitsToNat (ds : List Char) : Option Nat :=
  if ds.isEmpty then none else digitsToNatAux 0 ds

/-- An integer from a JSON numeric literal; fractional or exponent forms are
not integers (Go parses the literal with `strconv.ParseInt`). -/
def litToInt (lit : String) : Option Int :=
  match lit.data with
  | '-' :: ds => (digitsToNat ds).map (fun n => -(n : Int))
  | ds => (digitsToNat ds).map (fun n => (n : Int))

def decIntInto (cur : Int) : Json → Except String Int
  | .null => .ok cur
  | .num lit =>
    match litToInt lit with
    | some n => .ok n
    | none =>
      .error ("json: cannot unmarshal number " ++ lit ++
        " into Go value of type int")
  | j => .error (unmarshalErr j "int")

def decStructInto {α : Type} (target : String)
    (step : α → String → Json → Except String α) (cur : α) :
    Json → Except String α
  | .null => .ok cur
  | .obj fs => fs.foldlM (fun acc kv => step acc kv.1 kv.2) cur
  | j => .error (unmarshalErr j target)

def decListInto {α : Type} (zero : α) (dec : α → Json → Except String α)
    (target : String) (cur : List α) : Json → Except String (List α)
  | .null => .ok cur
  | .arr xs => xs.mapM (dec zero)
  | j => .error (unmarshalErr j target)

def decPtrInto {α : Type} (zero : α) (dec : α → Json → Except String α)
    (cur : Option α) : Json → Except String (Option α)
  | .null => .ok none
  | j => (dec (cur.getD zero) j).map some

/-! ## RFC 3339 timestamps (`time.Time.UnmarshalJSON`) -/

def isLeapYear (y : Nat) : Bool :=
  (y % 4 = 0 && y % 100 ≠ 0) || y % 400 = 0

def daysInMonth (y m : Nat) : Nat :=
  if m = 2 then (if isLeapYear y then 29 else 28)
  else if m = 4 ∨ m = 6 ∨ m = 9 ∨ m = 11 then 30
  else 31

/-- Cumulative days in a non-leap year before month `m` (1-based). -/
def cumDaysBefore (m : Nat) : Nat :=
  match m with
  | 1 => 0 | 2 => 31 | 3 => 59 | 4 => 90 | 5 => 120 | 6 => 151
  | 7 => 181 | 8 => 212 | 9 => 243 | 10 => 273 | 11 => 304 | 12 => 334
  | _ => 0

def dayOfYear (y m d : Nat) : Nat :=
  cumDaysBefore m + (if 2 < m && isLeapYear y then 1 else 0) + (d - 1)

/-- Days from 0001-01-01 to the given proleptic-Gregorian date (year 0 is a
leap year), minus the 719162 days from 0001-01-01 to the Unix epoch. -/
def daysSinceEpoch (y m d : Nat) : Int :=
  if y = 0 then (dayOfYear 0 m d : Int) - 366 - 719162
  else
    let py := y - 1
    (365 * py + py / 4 - py / 100 + py / 400 + dayOfYear y m d : Int) - 719162

def dig (c : Char) : Option Nat :=
  if c.isDigit then some (c.toNat - 48) else none

def dig2 (a b : Char) : Option Nat := do
  pure ((← dig a) * 10 + (← dig b))

/-- Unix nanoseconds of an RFC 3339 timestamp, `none` when malformed. -/
def rfc3339ToNanos (s : String) : Option Int :=
  match s.data with
  | y1 :: y2 :: y3 :: y4 :: '-' :: m1 :: m2 :: '-' :: d1 :: d2 :: 'T' ::
      h1 :: h2 :: ':' :: n1 :: n2 :: ':' :: s1 :: s2 :: rest => do
    let y := ((← dig y1) * 10 + (← dig y2)) * 100 + (← dig2 y3 y4)
    let mo ← dig2 m1 m2
    let da ← dig2 d1 d2
    let hh ← dig2 h1 h2
    let mi ← dig2 n1 n2
    let ss ← dig2 s1 s2
    if 1 ≤ mo ∧ mo ≤ 12 ∧ 1 ≤ da ∧ da ≤ daysInMonth y mo ∧
        hh ≤ 23 ∧ mi ≤ 59 ∧ ss ≤ 59 then
      let (frac, rest1) ←
        match rest with
        | '.' :: r =>
          let (ds, r2) := takeDigits r
          if ds.isEmpty then none
          else do
            let n ← digitsToNat (ds.take 9)
            pure ((n * 10 ^ (9 - min 9 ds.length), r2))
        | _ => pure ((0 : Nat), rest)
      let offset : Int ←
        match rest1 with
        | ['Z'] => pure 0
        | '+' :: o1 :: o2 :: ':' :: o3 :: o4 :: [] => do
          let oh ← dig2 o1 o2
          let om ← dig2 o3 o4
          if oh ≤ 23 ∧ om ≤ 59 then pure ((oh * 3600 + om * 60 : Nat) : Int)
          else none
        | '-' :: o1 :: o2 :: ':' :: o3 :: o4 :: [] => do
          let oh ← dig2 o1 o2
          let om ← dig2 o3 o4
          if oh ≤ 23 ∧ om ≤ 59 then pure (-((oh * 3600 + om * 60 : Nat) : Int))
          else none
        | _ => none
      pure ((daysSinceEpoch y mo da * 86400 +
        ((hh * 3600 + mi * 60 + ss : Nat) : Int) - offset) * 1000000000 +
        (frac : Int))
    else none
  | _ => none

/-- Unix nanoseconds of the zero `time.Time`, 0001-01-01T00:00:00Z. -/
def zeroTimeNanos : Int := -62135596800000000000

def decTimeInto (cur : Option Int) : Json → Except String (Option Int)
  | .null => .ok cur
  | .str s =>
    match rfc3339ToNanos s with
    | some v => .ok (if v = zeroTimeNanos then none else some v)
    | none => .error ("parsing time " ++ s ++ " as RFC3339: cannot parse")
  | _ => .error "Time.UnmarshalJSON: input is not a JSON string"

/-! ## Per-struct decoders -/

def NsItemMeta.step (m : NsItemMeta) (k : String) (v : Json) :
    Except String NsItemMeta :=
  if keyMatches k "name" then
    (decStringInto m.name v).map (fun s => { m with name := s })
  else .ok m

def decNsItemMeta : NsItemMeta → Json → Except String NsItemMeta :=
  decStructInto "metadata" NsItemMeta.step

def NsItem.step (it : NsItem) (k : String) (v : Json) : Except String NsItem :=
  if keyMatches k "metadata" then
    (decNsItemMeta it.metadata v).map (fun m => { it with metadata := m })
  else .ok it

def decNsItem : NsItem → Json → Except String NsItem :=
  decStructInto "namespace item" NsItem.step

def NamespaceList.step (l : NamespaceList) (k : String) (v : Json) :
    Except String NamespaceList :=
  if keyMatches k "items" then
    (decListInto NsItem.zero decNsItem "items" l.items v).map
      (fun xs => { l with items := xs })
  else .ok l

def decNamespaceList : NamespaceList → Json → Except String NamespaceList :=
  decStructInto "namespaceList" NamespaceList.step

def CtxEntry.step (c : CtxEntry) (k : String) (v : Json) :
    Except String CtxEntry :=
  if keyMatches k "name" then
    (decStringInto c.name v).map (fun s => { c with name := s })
  else .ok c

def decCtxEntry : CtxEntry → Json → Except String CtxEntry :=
  decStructInto "context entry" CtxEntry.step

def KubeConfigView.step (w : KubeConfigView) (k : String) (v : Json) :
    Except String KubeConfigView :=
  if keyMatches k "contexts" then
    (decListInto CtxEntry.zero decCtxEntry "contexts" w.contexts v).map
      (fun xs => { w with contexts := xs })
  else .ok w

def decKubeConfigView : KubeConfigView → Json → Except String KubeConfigView :=
  decStructInto "kubeConfigView" KubeConfigView.step

def OwnerRef.step (o : OwnerRef) (k : String) (v : Json) :
    Except String OwnerRef :=
  if keyMatches k "kind" then
    (decStringInto o.kind v).map (fun s => { o with kind := s })
  else .ok o

def decOwnerRef : OwnerRef → Json → Except String OwnerRef :=
  decStructInto "owner reference" OwnerRef.step

def PodMeta.step (m : PodMeta) (k : String) (v : Json) :
    Except String PodMeta :=
  if keyMatches k "name" then
    (decStringInto m.name v).map (fun s => { m with name := s })
  else if keyMatches k "creationTimestamp" then
    (decTimeInto m.creationTimestamp v).map
      (fun ts => { m with creationTimestamp := ts })
  else if keyMatches k "ownerReferences" then
    (decListInto OwnerRef.zero decOwnerRef "ownerReferences"
        m.ownerReferences v).map
      (fun xs => { m with ownerReferences := xs })
  else .ok m

def decPodMeta : PodMeta → Json → Except String PodMeta :=
  decStructInto "pod metadata" PodMeta.step

def ReasonState.step (r : ReasonState) (k : String) (v : Json) :
    Except String ReasonState :=
  if keyMatches k "reason" then
    (decStringInto r.reason v).map (fun s => { r with reason := s })
  else .ok r

def decReasonState : ReasonState → Json → Except String ReasonState :=
  decStructInto "container state detail" ReasonState.step

def ContainerState.step (st : ContainerState) (k : String) (v : Json) :
    Except String ContainerState :=
  if keyMatches k "waiting" then
    (decPtrInto ReasonState.zero decReasonState st.waiting v).map
      (fun w => { st with waiting := w })
  else if keyMatches k "terminated" then
    (decPtrInto ReasonState.zero decReasonState st.terminated v).map
      (fun tm => { st with terminated := tm })
  else .ok st

def decContainerState : ContainerState → Json → Except String ContainerState :=
  decStructInto "container state" ContainerState.step

def ContainerStatus.step (cs : ContainerStatus) (k : String) (v : Json) :
    Except String ContainerStatus :=
  if keyMatches k "ready" then
    (decBoolInto cs.ready v).map (fun b => { cs with ready := b })
  else if keyMatches k "restartCount" then
    (decIntInto cs.restartCount v).map (fun n => { cs with restartCount := n })
  else if keyMatches k "state" then
    (decContainerState cs.state v).map (fun st => { cs with state := st })
  else .ok cs

def decContainerStatus : ContainerStatus → Json → Except String ContainerStatus :=
  decStructInto "container status" ContainerStatus.step

def PodStatus.step (st : PodStatus) (k : String) (v : Json) :
    Except String PodStatus :=
  if keyMatches k "phase" then
    (decStringInto st.phase v).map (fun s => { st with phase := s })
  else if keyMatches k "reason" then
    (decStringInto st.reason v).map (fun s => { st with reason := s })
  else if keyMatches k "nodeName" then
    (decStringInto st.nodeName v).map (fun s => { st with nodeName := s })
  else if keyMatches k "containerStatuses" then
    (decListInto ContainerStatus.zero decContainerStatus "containerStatuses"
        st.containerStatuses v).map
      (fun xs => { st with containerStatuses := xs })
  else .ok st

def decPodStatus : PodStatus → Json → Except String PodStatus :=
  decStructInto "pod status" PodStatus.step

def PodItem.step (it : PodItem) (k : String) (v : Json) :
    Except String PodItem :=
  if keyMatches k "metadata" then
    (decPodMeta it.metadata v).map (fun m => { it with metadata := m })
  else if keyMatches k "status" then
    (decPodStatus it.status v).map (fun st => { it with status := st })
  else .ok it

def decPodItem : PodItem → Json → Except String PodItem :=
  decStructInto "pod item" PodItem.step

def PodList.step (l : PodList) (k : String) (v : Json) :
    Except String PodList :=
  if keyMatches k "items" then
    (decListInto PodItem.zero decPodItem "items" l.items v).map
      (fun xs => { l with items := xs })
  else .ok l

def decPodList : PodList → Json → Except String PodList :=
  decStructInto "podList" PodList.step

/-! ## The three parse functions (`kubectl_parse.go`) -/

def parseNamespaces (stdout : String) : Except String (List KNamespace) := do
  let j ← jsonParse stdout
  let list ← decNamespaceList NamespaceList.zero j
  .ok (list.items.filterMap (fun item =>
    if item.metadata.name = "" then none
    else some (KNamespace.mk item.metadata.name)))

def parseContexts (stdout : String) : Except String (List String) := do
  let j ← jsonParse stdout
  let view ← decKubeConfigView KubeConfigView.zero j
  .ok (view.contexts.filterMap (fun ctx =>
    if ctx.name = "" then none else some ctx.name))

/-- One step of the `parsePods` per-item loop, accumulating the loop's
three mutable variables `(readyCount, restarts, status)`. -/
def podAccStep (a : Nat × Int × String) (cs : ContainerStatus) :
    Nat × Int × String :=
  let readyCount := if cs.ready then a.1 + 1 else a.1
  let restarts := a.2.1 + cs.restartCount
  let st :=
    match cs.state.waiting with
    | some w => if w.reason ≠ "" then w.reason else a.2.2
    | none => a.2.2
  let st :=
    match cs.state.terminated with
    | some tm => if tm.reason ≠ "" then tm.reason else st
    | none => st
  (readyCount, restarts, st)

def podRecordOf (now : Int) (item : PodItem) : Pod :=
  let init := if item.status.reason ≠ "" then item.status.reason
    else item.status.phase
  let acc := item.status.containerStatuses.foldl podAccStep (0, 0, init)
  let total := item.status.containerStatuses.length
  let age :=
    match item.metadata.creationTimestamp with
    | some ts => formatAge (now - ts)
    | none => "-"
  { name := item.metadata.name
    status := acc.2.2
    ready := toString acc.1 ++ "/" ++ toString total
    restarts := acc.2.1
    age := age
    node := if item.status.nodeName = "" then "-" else item.status.nodeName
    hasOwner := !item.metadata.ownerReferences.isEmpty }

def podsOfList (now : Int) (list : PodList) : List Pod :=
  list.items.map (podRecordOf now)

def parsePods (now : Int) (stdout : String) : Except String (List Pod) := do
  let j ← jsonParse stdout
  let list ← decPodList PodList.zero j
  .ok (podsOfList now list)

/-! ## The process runner (`kubectl_runner.go`, `Run`)

The external process is outside the program, so `Run` takes the observed
outcome as input: captured stdout/stderr text, the classification of the
`cmd.Run` error (`none` = clean exit, `exitErr c` = the process's own
nonzero exit status, `otherErr` = could not start/observe), and whether the
run context's deadline had expired at the final check. -/

inductive RunErr where
  | exitErr (code : Int)
  | otherErr
deriving Repr, DecidableEq

structure ProcOutcome where
  stdout : String
  stderr : String
  runError : Option RunErr
  deadlineExceeded : Bool
deriving Repr, DecidableEq

def KubectlRunner.Run (args : List String) (o : ProcOutcome)
    (durationMs : Int) : CommandResult :=
  let exitCode : Int :=
    match o.runError with
    | none => 0
    | some (.exitErr c) => c
    | some .otherErr => -1
  let stderr :=
    if o.deadlineExceeded && o.stderr == "" then o.stderr ++ "command timed out"
    else o.stderr
  { command := "kubectl " ++ String.intercalate " " args
    stdout := o.stdout
    stderr := stderr
    exitCode := exitCode
    durationMs := durationMs
    parsedData := none }

/-- The process environment: what outcome and measured duration each runner
invocation observes. -/
def ProcEnv := List String → Nat → ProcOutcome × Int

def defaultTimeout : Nat := 15
def logsTimeout : Nat := 30

def runKubectl (env : ProcEnv) (args : List String) (timeout : Nat) :
    CommandResult :=
  KubectlRunner.Run args (env args timeout).1 (env args timeout).2

/-! ## Command service (`App` methods) -/

def invalidResult (args : List String) (err : String) : CommandResult :=
  { command := "kubectl " ++ String.intercalate " " args
    stdout := ""
    stderr := err
    exitCode := -1
    durationMs := 0
    parsedData := none }

def appendParseError (r : CommandResult) (e : String) : CommandResult :=
  { r with
    stderr := (if r.stderr ≠ "" then r.stderr ++ "\n" else r.stderr) ++
      "parse error: " ++ e }

/-- The value a service method returns together with its two effects: the
updated transcript and the runner invocations it performed. -/
structure OpOut where
  result : CommandResult
  transcript : List CommandResult
  calls : List (List String × Nat)
deriving Repr, DecidableEq

/-- `trimSpace` on ASCII whitespace (`strings.TrimSpace`). -/
def isGoSpace (c : Char) : Bool :=
  c == ' ' || c == '\t' || c == '\n' || c == '\r' || c.toNat = 11 || c.toNat = 12

def trimSpace (s : String) : String :=
  ⟨((s.data.dropWhile isGoSpace).reverse.dropWhile isGoSpace).reverse⟩

def ListContexts (env : ProcEnv) (t : List CommandResult) : OpOut :=
  let args := ["config", "view", "-o", "json"]
  let result := runKubectl env args defaultTimeout
  let result :=
    if result.exitCode = 0 then
      match parseContexts result.stdout with
      | .error e => appendParseError result e
      | .ok parsed => { result with parsedData := some (.contexts parsed) }
    else result
  ⟨result, record t result, [(args, defaultTimeout)]⟩

def GetCurrentContext (env : ProcEnv) (t : List CommandResult) : OpOut :=
  let args := ["config", "current-context"]
  let result := runKubectl env args defaultTimeout
  let result :=
    if result.exitCode = 0 then
      { result with parsedData := some (.currentContext (trimSpace result.stdout)) }
    else result
  ⟨result, record t result, [(args, defaultTimeout)]⟩

def SetContext (env : ProcEnv) (t : List CommandResult) (name : String) :
    OpOut :=
  match validateContextName name with
  | some e => ⟨invalidResult ["config", "use-context", name] e, t, []⟩
  | none =>
    let args := ["config", "use-context", name]
    let result := runKubectl env args defaultTimeout
    ⟨result, record t result, [(args, defaultTimeout)]⟩

def ListNamespaces (env : ProcEnv) (t : List CommandResult)
    (contextName : String) : OpOut :=
  match withContext ["get", "ns", "-o", "json"] contextName with
  | .error e =>
    ⟨invalidResult ["--context", contextName, "get", "ns", "-o", "json"] e,
      t, []⟩
  | .ok args =>
    let result := runKubectl env args defaultTimeout
    let result :=
      if result.exitCode = 0 then
        match parseNamespaces result.stdout with
        | .error e => appendParseError result e
        | .ok parsed => { result with parsedData := some (.namespaces parsed) }
      else result
    ⟨result, record t result, [(args, defaultTimeout)]⟩

def ListPods (env : ProcEnv) (now : Int) (t : List CommandResult)
    (contextName ns : String) : OpOut :=
  match validateNamespace ns with
  | some e => ⟨invalidResult ["get", "pods", "-n", ns, "-o", "json"] e, t, []⟩
  | none =>
    match withContext ["get", "pods", "-n", ns, "-o", "json"] contextName with
    | .error e =>
      ⟨invalidResult
        ["--context", contextName, "get", "pods", "-n", ns, "-o", "json"] e,
        t, []⟩
    | .ok args =>
      let result := runKubectl env args defaultTimeout
      let result :=
        if result.exitCode = 0 then
          match parsePods now result.stdout with
          | .error e => appendParseError result e
          | .ok parsed => { result with parsedData := some (.pods parsed) }
        else result
      ⟨result, record t result, [(args, defaultTimeout)]⟩

def DeletePod (env : ProcEnv) (t : List CommandResult)
    (contextName ns name : String) : OpOut :=
  match validateNamespace ns with
  | some e => ⟨invalidResult ["delete", "pod", name, "-n", ns] e, t, []⟩
  | none =>
    match validatePodName name with
    | some e => ⟨invalidResult ["delete", "pod", name, "-n", ns] e, t, []⟩
    | none =>
      match withContext ["delete", "pod", name, "-n", ns] contextName with
      | .error e =>
        ⟨invalidResult ["--context", contextName, "delete", "pod", name,
          "-n", ns] e, t, []⟩
      | .ok args =>
        let result := runKubectl env args defaultTimeout
        ⟨result, record t result, [(args, defaultTimeout)]⟩

def GetPodLogs (env : ProcEnv) (t : List CommandResult)
    (contextName ns name : String) (tail : Int) : OpOut :=
  match validateNamespace ns with
  | some e => ⟨invalidResult ["logs", name, "-n", ns] e, t, []⟩
  | none =>
    match validatePodName name with
    | some e => ⟨invalidResult ["logs", name, "-n", ns] e, t, []⟩
    | none =>
      let tail := if tail ≤ 0 then 100 else tail
      match withContext ["logs", name, "-n", ns, "--tail=" ++ toString tail]
          contextName with
      | .error e =>
        ⟨invalidResult ["--context", contextName, "logs", name, "-n", ns] e,
          t, []⟩
      | .ok args =>
        let result := runKubectl env args logsTimeout
        ⟨result, record t result, [(args, logsTimeout)]⟩

def DescribePod (env : ProcEnv) (t : List CommandResult)
    (contextName ns name : String) : OpOut :=
  match validateNamespace ns with
  | some e => ⟨invalidResult ["describe", "pod", name, "-n", ns] e, t, []⟩
  | none =>
    match validatePodName name with
    | some e => ⟨invalidResult ["describe", "pod", name, "-n", ns] e, t, []⟩
    | none =>
      match withContext ["describe", "pod", name, "-n", ns] contextName with
      | .error e =>
        ⟨invalidResult ["--context", contextName, "describe", "pod", name,
          "-n", ns] e, t, []⟩
      | .ok args =>
        let result := runKubectl env args defaultTimeout
        ⟨result, record t result, [(args, defaultTimeout)]⟩

/-! ## Helper lemmas about the transcript buffer -/

lemma record_eq_drop (t : List CommandResult) (r : CommandResult)
    (h : t.length ≤ 200) :
    record t r = (t ++ [r]).drop (t.length + 1 - 200) := by
  simp only [record, List.length_append, List.length_cons, List.length_nil,
    Nat.zero_add, gt_iff_lt]
  split_ifs with hgt
  · rfl
  · rw [Nat.sub_eq_zero_of_le (by omega), List.drop_zero]

lemma record_length (t : List CommandResult) (r : CommandResult)
    (h : t.length ≤ 200) :
    (record t r).length = min (t.length + 1) 200 := by
  rw [record_eq_drop t r h, List.length_drop]
  simp only [List.length_append, List.length_cons, List.length_nil]
  omega

lemma record_length_le (t : List CommandResult) (r : CommandResult)
    (h : t.length ≤ 200) : (record t r).length ≤ 200 := by
  rw [record_length t r h]
  omega

lemma foldl_record_eq (rs : List CommandResult) :
    ∀ t : List CommandResult, t.length ≤ 200 →
      rs.foldl record t = (t ++ rs).drop (t.length + rs.length - 200) := by
  induction rs with
  | nil =>
    intro t h
    simp only [List.foldl_nil, List.length_nil, Nat.add_zero, List.append_nil]
    rw [Nat.sub_eq_zero_of_le h, List.drop_zero]
  | cons r rs ih =>
    intro t h
    rw [List.foldl_cons, ih (record t r) (record_length_le t r h),
      record_eq_drop t r h]
    have hk : t.length + 1 - 200 ≤ (t ++ [r]).length := by
      simp only [List.length_append, List.length_cons, List.length_nil]
      omega
    rw [← List.drop_append_of_le_length hk, List.drop_drop]
    have hAssoc : (t ++ [r]) ++ rs = t ++ r :: rs := by simp
    rw [hAssoc]
    have hamt : t.length + 1 - 200 +
        ((List.drop (t.length + 1 - 200) (t ++ [r])).length + rs.length - 200) =
        t.length + (r :: rs).length - 200 := by
      simp only [List.length_drop, List.length_append, List.length_cons,
        List.length_nil]
      omega
    rw [hamt]

/-- The argument pair the service prepends for a non-empty context. -/
def ctxArgs (contextName : String) : List String :=
  if contextName = "" then [] else ["--context", contextName]

lemma withContext_ok (args : List String) (contextName : String)
    (h : validateContextName contextName = none) :
    withContext args contextName = .ok (ctxArgs contextName ++ args) := by
  simp only [withContext, h, ctxArgs]
  split_ifs with hc <;> simp

/-! ## Concrete inputs used by witnesses -/

def sampleEnvelope (i : Nat) : CommandResult :=
  { command := "kubectl get ns -o json", stdout := "", stderr := "",
    exitCode := 0, durationMs := (i : Int), parsedData := none }

def sampleEnvelopes205 : List CommandResult :=
  (List.range 205).map sampleEnvelope

/-- A process outcome where the deadline killed the process: `cmd.Run`
reports the signal-kill `ExitError`, whose `ExitCode()` is -1. -/
def timeoutOutcome : ProcOutcome :=
  { stdout := "", stderr := "", runError := some (.exitErr (-1)),
    deadlineExceeded := true }

/-- An environment whose processes exit cleanly with empty output. -/
def envNoop : ProcEnv :=
  fun _ _ => (⟨"", "", none, false⟩, 0)

/-- An environment whose processes exit 0 with non-JSON stdout. -/
def envBadJson : ProcEnv :=
  fun _ _ => (⟨"oops", "", none, false⟩, 3)

/-- An environment whose processes exit 0 with stdout `null`. -/
def envNullJson : ProcEnv :=
  fun _ _ => (⟨"null", "", none, false⟩, 3)

/-! ## Claim theorems -/

/-- C6: `record` appends at the end and then truncates from the front
whenever the length exceeds 200, so any sequence of appends starting from
the empty transcript stays within 200 entries, and appending 205 envelopes
leaves exactly the last 200 in insertion order (oldest evicted first,
i.e. the result is the input sequence with its first 5 entries dropped). -/
theorem transcript_fifo_bounded :
    (∀ rs : List CommandResult, (rs.foldl record []).length ≤ 200) ∧
    (∀ rs : List CommandResult, rs.length = 205 →
      rs.foldl record [] = rs.drop 5) := by
  constructor
  · intro rs
    rw [foldl_record_eq rs [] (by simp)]
    simp only [List.length_drop, List.nil_append, List.length_nil, Nat.zero_add]
    omega
  · intro rs h
    rw [foldl_record_eq rs [] (by simp), h, List.nil_append]
    norm_num

theorem transcript_fifo_bounded_witness :
    sampleEnvelopes205.length = 205 ∧
    sampleEnvelopes205.foldl record [] = sampleEnvelopes205.drop 5 :=
  ⟨by simp [sampleEnvelopes205],
    transcript_fifo_bounded.2 sampleEnvelopes205 (by simp [sampleEnvelopes205])⟩

/-- C8: when the runner's deadline expired during the run (so `cmd.Run`
reported a failure — a killed process never reports a clean exit, and an
`ExitError` never carries status 0) and the process produced no stderr
text, the envelope's stderr is exactly "command timed out" and the exit
code is a failure classification (nonzero); when the process did produce
stderr text, no synthetic message is added. -/
theorem run_timeout_stderr (args : List String) (o : ProcOutcome) (dur : Int)
    (hdl : o.deadlineExceeded = true)
    (hfail : o.runError ≠ none)
    (hexit : ∀ c : Int, o.runError = some (.exitErr c) → c ≠ 0) :
    (o.stderr = "" →
      (KubectlRunner.Run args o dur).stderr = "command timed out" ∧
        (KubectlRunner.Run args o dur).exitCode ≠ 0) ∧
    (o.stderr ≠ "" → (KubectlRunner.Run args o dur).stderr = o.stderr) := by
  constructor
  · intro hse
    constructor
    · simp [KubectlRunner.Run, hdl, hse]
    · match hre : o.runError with
      | none => exact absurd hre hfail
      | some (.exitErr c) =>
        simp only [KubectlRunner.Run, hre]
        exact hexit c hre
      | some .otherErr => simp [KubectlRunner.Run, hre]
  · intro hse
    simp [KubectlRunner.Run, hse]

theorem run_timeout_stderr_witness :
    (KubectlRunner.Run ["get", "pods", "-n", "default", "-o", "json"]
      timeoutOutcome 15000).stderr = "command timed out" ∧
    (KubectlRunner.Run ["get", "pods", "-n", "default", "-o", "json"]
      timeoutOutcome 15000).exitCode ≠ 0 :=
  (run_timeout_stderr ["get", "pods", "-n", "default", "-o", "json"]
    timeoutOutcome 15000 rfl (by simp [timeoutOutcome])
    (by intro c hc; simp [timeoutOutcome] at hc; omega)).1 rfl

/-- C9: `GetPodLogs` with a non-positive tail behaves identically to a
call with tail 100, and (for valid inputs) the constructed argument
vector carries `--tail=100`. -/
theorem getPodLogs_tail_defaults (env : ProcEnv) (t : List CommandResult)
    (ctx ns name : String) (tail : Int) (htail : tail ≤ 0) :
    GetPodLogs env t ctx ns name tail = GetPodLogs env t ctx ns name 100 ∧
    (validateNamespace ns = none → validatePodName name = none →
      validateContextName ctx = none →
      (GetPodLogs env t ctx ns name tail).calls =
        [(ctxArgs ctx ++ ["logs", name, "-n", ns, "--tail=100"],
          logsTimeout)]) := by
  have h1 : (if (tail : Int) ≤ 0 then (100 : Int) else tail) = 100 :=
    if_pos htail
  have h2 : (if (100 : Int) ≤ 0 then (100 : Int) else 100) = 100 := by
    norm_num
  constructor
  · simp only [GetPodLogs, h1, h2]
  · intro hns hname hctx
    simp only [GetPodLogs, hns, hname, h1, withContext_ok _ _ hctx]
    rfl

theorem getPodLogs_tail_defaults_witness :
    (-7 : Int) ≤ 0 ∧
    GetPodLogs envNoop [] "prod" "default" "api" (-7) =
      GetPodLogs envNoop [] "prod" "default" "api" 100 ∧
    (GetPodLogs envNoop [] "prod" "default" "api" (-7)).calls =
      [(["--context", "prod", "logs", "api", "-n", "default", "--tail=100"],
        logsTimeout)] :=
  ⟨by norm_num,
    (getPodLogs_tail_defaults envNoop [] "prod" "default" "api" (-7)
      (by norm_num)).1,
    (getPodLogs_tail_defaults envNoop [] "prod" "default" "api" (-7)
      (by norm_num)).2 rfl rfl rfl⟩

lemma withContext_err (args : List String) (contextName : String) (e : String)
    (h : validateContextName contextName = some e) :
    withContext args contextName = .error e := by
  simp [withContext, h]

/-- C5: for valid inputs each operation invokes the runner exactly once
with the documented fixed argument vector, with the `--context <name>`
pair prepended iff a non-empty context name was supplied (`ctxArgs`). -/
theorem argument_vectors_fixed (env : ProcEnv) (now : Int)
    (t : List CommandResult) (ctx ns name : String) (tail : Int)
    (hctx : validateContextName ctx = none)
    (hns : validateNamespace ns = none)
    (hname : validatePodName name = none)
    (htail : 0 < tail) :
    (ListContexts env t).calls =
      [(["config", "view", "-o", "json"], defaultTimeout)] ∧
    (GetCurrentContext env t).calls =
      [(["config", "current-context"], defaultTimeout)] ∧
    (SetContext env t ctx).calls =
      [(["config", "use-context", ctx], defaultTimeout)] ∧
    (ListNamespaces env t ctx).calls =
      [(ctxArgs ctx ++ ["get", "ns", "-o", "json"], defaultTimeout)] ∧
    (ListPods env now t ctx ns).calls =
      [(ctxArgs ctx ++ ["get", "pods", "-n", ns, "-o", "json"],
        defaultTimeout)] ∧
    (DeletePod env t ctx ns name).calls =
      [(ctxArgs ctx ++ ["delete", "pod", name, "-n", ns], defaultTimeout)] ∧
    (GetPodLogs env t ctx ns name tail).calls =
      [(ctxArgs ctx ++ ["logs", name, "-n", ns, "--tail=" ++ toString tail],
        logsTimeout)] ∧
    (DescribePod env t ctx ns name).calls =
      [(ctxArgs ctx ++ ["describe", "pod", name, "-n", ns],
        defaultTimeout)] ∧
    ctxArgs ctx = (if ctx = "" then [] else ["--context", ctx]) := by
  have htail2 : ¬ (tail ≤ 0) := by omega
  refine ⟨rfl, rfl, ?_, ?_, ?_, ?_, ?_, ?_, rfl⟩
  · simp only [SetContext, hctx]
  · simp only [ListNamespaces, withContext_ok _ _ hctx]
  · simp only [ListPods, hns, withContext_ok _ _ hctx]
  · simp only [DeletePod, hns, hname, withContext_ok _ _ hctx]
  · simp only [GetPodLogs, hns, hname, if_neg htail2,
      withContext_ok _ _ hctx]
  · simp only [DescribePod, hns, hname, withContext_ok _ _ hctx]

theorem argument_vectors_fixed_witness :
    validateContextName "prod" = none ∧ validateNamespace "default" = none ∧
    validatePodName "api" = none ∧ (0 : Int) < 250 ∧
    (ListPods envNoop 0 [] "prod" "default").calls =
      [(["--context", "prod", "get", "pods", "-n", "default", "-o", "json"],
        defaultTimeout)] ∧
    (ListPods envNoop 0 [] "" "default").calls =
      [(["get", "pods", "-n", "default", "-o", "json"], defaultTimeout)] ∧
    (GetPodLogs envNoop [] "prod" "default" "api" 250).calls =
      [(["--context", "prod", "logs", "api", "-n", "default", "--tail=250"],
        logsTimeout)] :=
  ⟨rfl, rfl, rfl, by norm_num,
    (argument_vectors_fixed envNoop 0 [] "prod" "default" "api" 250
      rfl rfl rfl (by norm_num)).2.2.2.2.1,
    (argument_vectors_fixed envNoop 0 [] "" "default" "api" 250
      rfl rfl rfl (by norm_num)).2.2.2.2.1,
    (argument_vectors_fixed envNoop 0 [] "prod" "default" "api" 250
      rfl rfl rfl (by norm_num)).2.2.2.2.2.2.1⟩

/-- Spec-side characterisation of the DNS-1123 label rule: a non-empty
string of lowercase alphanumerics and hyphens, not starting or ending with
a hyphen, at most 253 characters. -/
def isDNS1123Label (s : String) : Bool :=
  !s.data.isEmpty && s.length ≤ 253 &&
    s.data.all (fun c => isLowerAlnum c || c == '-') &&
    !(s.data.head? == some '-') && !(s.data.getLast? == some '-')

lemma isLowerAlnum_dash : isLowerAlnum '-' = false := rfl

lemma not_dash_of_isLowerAlnum {c : Char} (h : isLowerAlnum c = true) :
    ¬ c = '-' := by
  intro hd
  rw [hd, isLowerAlnum_dash] at h
  exact Bool.noConfusion h

lemma isEmpty_false_iff (l : List Char) : l.isEmpty = false ↔ l ≠ [] := by
  cases l <;> simp

lemma dnsLabelMatch_cons (c : Char) (rest : List Char) :
    dnsLabelMatch ⟨c :: rest⟩ =
      (isLowerAlnum c &&
        (match rest.getLast? with
         | none => true
         | some d => isLowerAlnum d &&
             rest.dropLast.all (fun x => x == '-' || isLowerAlnum x))) := rfl

lemma dnsLabelMatch_mk_iff (l : List Char) :
    dnsLabelMatch ⟨l⟩ = true ↔
      (l ≠ [] ∧ (∀ c ∈ l, isLowerAlnum c = true ∨ c = '-') ∧
        l.head? ≠ some '-' ∧ l.getLast? ≠ some '-') := by
  match l with
  | [] => simp [dnsLabelMatch]
  | c :: rest =>
    rcases List.eq_nil_or_concat rest with hr | ⟨L, b, hr⟩
    · subst hr
      simp only [dnsLabelMatch_cons, List.getLast?_nil, Bool.and_true]
      constructor
      · intro hc
        refine ⟨by simp, ?_, ?_, ?_⟩
        · intro x hx
          rw [List.mem_singleton] at hx
          subst hx
          exact Or.inl hc
        · simp only [List.head?_cons, ne_eq, Option.some.injEq]
          exact not_dash_of_isLowerAlnum hc
        · show ¬ [c].getLast? = some '-'
          rw [show [c].getLast? = some c from rfl]
          simp only [Option.some.injEq]
          exact not_dash_of_isLowerAlnum hc
      · rintro ⟨-, hall, hhd, -⟩
        have hcmem := hall c (List.mem_singleton.mpr rfl)
        have hne : ¬ c = '-' := by
          intro hd
          exact hhd (by rw [List.head?_cons, hd])
        exact hcmem.resolve_right hne
    · rw [List.concat_eq_append] at hr
      subst hr
      have hgl : (L ++ [b]).getLast? = some b := List.getLast?_concat L
      have hdl : (L ++ [b]).dropLast = L := List.dropLast_concat
      have hgl2 : (c :: (L ++ [b])).getLast? = some b := by
        rw [← List.cons_append]
        exact List.getLast?_concat (c :: L)
      simp only [dnsLabelMatch_cons, hgl, hdl]
      constructor
      · intro h
        simp only [Bool.and_eq_true] at h
        obtain ⟨hc, hb, hLall⟩ := h
        rw [List.all_eq_true] at hLall
        refine ⟨by simp, ?_, ?_, ?_⟩
        · intro x hx
          rw [List.mem_cons] at hx
          rcases hx with hx | hx
          · subst hx; exact Or.inl hc
          · rw [List.mem_append] at hx
            rcases hx with hx | hx
            · have hx2 := hLall x hx
              simp only [Bool.or_eq_true, beq_iff_eq] at hx2
              tauto
            · rw [List.mem_singleton] at hx
              subst hx
              exact Or.inl hb
        · simp only [List.head?_cons, ne_eq, Option.some.injEq]
          exact not_dash_of_isLowerAlnum hc
        · rw [hgl2]
          simp only [ne_eq, Option.some.injEq]
          exact not_dash_of_isLowerAlnum hb
      · rintro ⟨-, hall, hhd, hlast⟩
        have hc : isLowerAlnum c = true := by
          have h1 := hall c (List.mem_cons_self c (L ++ [b]))
          have hne : ¬ c = '-' := by
            intro hd
            exact hhd (by rw [List.head?_cons, hd])
          exact h1.resolve_right hne
        have hb : isLowerAlnum b = true := by
          have h1 := hall b (by
            rw [List.mem_cons, List.mem_append, List.mem_singleton]
            exact Or.inr (Or.inr rfl))
          have hne : ¬ b = '-' := by
            intro hd
            exact hlast (by rw [hgl2, hd])
          exact h1.resolve_right hne
        have hLall : L.all (fun x => x == '-' || isLowerAlnum x) = true := by
          rw [List.all_eq_true]
          intro x hx
          have h1 := hall x (by
            rw [List.mem_cons, List.mem_append]
            exact Or.inr (Or.inl hx))
          simp only [Bool.or_eq_true, beq_iff_eq]
          tauto
        rw [hc, hb, hLall]
        rfl

lemma isDNS1123Label_iff (s : String) :
    isDNS1123Label s = true ↔
      (s.length ≠ 0 ∧ s.length ≤ 253 ∧ dnsLabelMatch s = true) := by
  have h1 : dnsLabelMatch s = dnsLabelMatch ⟨s.data⟩ := rfl
  rw [h1, dnsLabelMatch_mk_iff]
  simp only [isDNS1123Label, Bool.and_eq_true, Bool.not_eq_true',
    beq_eq_false_iff_ne, ne_eq, decide_eq_true_eq, isEmpty_false_iff,
    List.all_eq_true, Bool.or_eq_true, beq_iff_eq]
  have hlen0 : s.length = 0 ↔ s.data = [] := List.length_eq_zero
  tauto

lemma validateNamespace_none_iff (s : String) :
    validateNamespace s = none ↔ isDNS1123Label s = true := by
  rw [isDNS1123Label_iff]
  unfold validateNamespace
  split_ifs with h1 h2
  · apply iff_of_false (by simp)
    rintro ⟨hne, -, -⟩
    exact absurd h1 hne
  · apply iff_of_false (by simp)
    rintro ⟨hne, hle, hmatch⟩
    rcases h2 with h2 | h2
    · omega
    · rw [hmatch] at h2
      exact Bool.noConfusion h2
  · apply iff_of_true rfl
    push_neg at h2
    obtain ⟨hle, hmatch⟩ := h2
    exact ⟨h1, by omega, by simpa using hmatch⟩

lemma validatePodName_none_iff (s : String) :
    validatePodName s = none ↔ isDNS1123Label s = true := by
  rw [isDNS1123Label_iff]
  unfold validatePodName
  split_ifs with h1 h2
  · apply iff_of_false (by simp)
    rintro ⟨hne, -, -⟩
    exact absurd h1 hne
  · apply iff_of_false (by simp)
    rintro ⟨hne, hle, hmatch⟩
    rcases h2 with h2 | h2
    · omega
    · rw [hmatch] at h2
      exact Bool.noConfusion h2
  · apply iff_of_true rfl
    push_neg at h2
    obtain ⟨hle, hmatch⟩ := h2
    exact ⟨h1, by omega, by simpa using hmatch⟩

/-- The stderr text a pod-scoped operation reports when validation fails:
the namespace check runs first, the pod-name check second. -/
def firstInvalidMsg (ns name : String) : String :=
  match validateNamespace ns with
  | some e => e
  | none =>
    match validatePodName name with
    | some e => e
    | none => ""

/-- C2: `DeletePod`, `GetPodLogs` and `DescribePod` given a namespace or
pod name violating the DNS-1123 label rule return an envelope with
exitCode -1, empty stdout and the validation error message as stderr,
without invoking the runner (no call is made). -/
theorem invalid_names_rejected_without_runner (env : ProcEnv)
    (t : List CommandResult) (ctx ns name : String) (tail : Int)
    (h : isDNS1123Label ns = false ∨ isDNS1123Label name = false) :
    ((DeletePod env t ctx ns name).result.exitCode = -1 ∧
      (DeletePod env t ctx ns name).result.stdout = "" ∧
      (DeletePod env t ctx ns name).result.stderr = firstInvalidMsg ns name ∧
      (DeletePod env t ctx ns name).calls = []) ∧
    ((GetPodLogs env t ctx ns name tail).result.exitCode = -1 ∧
      (GetPodLogs env t ctx ns name tail).result.stdout = "" ∧
      (GetPodLogs env t ctx ns name tail).result.stderr =
        firstInvalidMsg ns name ∧
      (GetPodLogs env t ctx ns name tail).calls = []) ∧
    ((DescribePod env t ctx ns name).result.exitCode = -1 ∧
      (DescribePod env t ctx ns name).result.stdout = "" ∧
      (DescribePod env t ctx ns name).result.stderr =
        firstInvalidMsg ns name ∧
      (DescribePod env t ctx ns name).calls = []) := by
  cases hns : validateNamespace ns with
  | some e =>
    simp [DeletePod, GetPodLogs, DescribePod, firstInvalidMsg, hns,
      invalidResult]
  | none =>
    have hlabns : isDNS1123Label ns = true := (validateNamespace_none_iff ns).mp hns
    have hlabname : isDNS1123Label name = false := by
      rcases h with h | h
      · rw [hlabns] at h
        exact Bool.noConfusion h
      · exact h
    cases hname : validatePodName name with
    | none =>
      have := (validatePodName_none_iff name).mpr
      rw [hname] at this
      rw [(validatePodName_none_iff name).mp hname] at hlabname
      exact Bool.noConfusion hlabname
    | some e =>
      simp [DeletePod, GetPodLogs, DescribePod, firstInvalidMsg, hns,
        hname, invalidResult]

theorem invalid_names_rejected_without_runner_witness :
    isDNS1123Label "Bad_NS" = false ∧
    (DeletePod envNoop [] "" "Bad_NS" "api").result.exitCode = -1 ∧
    (DeletePod envNoop [] "" "Bad_NS" "api").result.stdout = "" ∧
    (DeletePod envNoop [] "" "Bad_NS" "api").result.stderr =
      "invalid namespace name" ∧
    (DeletePod envNoop [] "" "Bad_NS" "api").calls = [] :=
  ⟨rfl,
    (invalid_names_rejected_without_runner envNoop [] "" "Bad_NS" "api" 100
      (Or.inl rfl)).1.1,
    (invalid_names_rejected_without_runner envNoop [] "" "Bad_NS" "api" 100
      (Or.inl rfl)).1.2.1,
    (invalid_names_rejected_without_runner envNoop [] "" "Bad_NS" "api" 100
      (Or.inl rfl)).1.2.2.1,
    (invalid_names_rejected_without_runner envNoop [] "" "Bad_NS" "api" 100
      (Or.inl rfl)).1.2.2.2⟩

/-- C1 (amended): every invocation whose inputs pass validation appends its
envelope to the transcript before returning (the new transcript is `record`
of the old one and the returned result); an invocation that fails input
validation returns its exitCode -1 envelope without appending it. -/
theorem recorded_iff_validated (env : ProcEnv) (now : Int)
    (t : List CommandResult) (ctx ns name : String) (tail : Int)
    (e : String) :
    ((ListContexts env t).transcript = record t (ListContexts env t).result) ∧
    ((GetCurrentContext env t).transcript =
      record t (GetCurrentContext env t).result) ∧
    (validateContextName ctx = none →
      (SetContext env t ctx).transcript =
        record t (SetContext env t ctx).result) ∧
    (validateContextName ctx = some e →
      (SetContext env t ctx).transcript = t ∧
      (SetContext env t ctx).result.exitCode = -1) ∧
    (validateContextName ctx = none →
      (ListNamespaces env t ctx).transcript =
        record t (ListNamespaces env t ctx).result) ∧
    (validateContextName ctx = some e →
      (ListNamespaces env t ctx).transcript = t) ∧
    (validateNamespace ns = none → validateContextName ctx = none →
      (ListPods env now t ctx ns).transcript =
        record t (ListPods env now t ctx ns).result) ∧
    (validateNamespace ns = some e ∨ validateContextName ctx = some e →
      (ListPods env now t ctx ns).transcript = t) ∧
    (validateNamespace ns = none → validatePodName name = none →
      validateContextName ctx = none →
      (DeletePod env t ctx ns name).transcript =
        record t (DeletePod env t ctx ns name).result) ∧
    (validateNamespace ns = some e ∨ validatePodName name = some e ∨
        validateContextName ctx = some e →
      (DeletePod env t ctx ns name).transcript = t) ∧
    (validateNamespace ns = none → validatePodName name = none →
      validateContextName ctx = none →
      (GetPodLogs env t ctx ns name tail).transcript =
        record t (GetPodLogs env t ctx ns name tail).result) ∧
    (validateNamespace ns = some e ∨ validatePodName name = some e ∨
        validateContextName ctx = some e →
      (GetPodLogs env t ctx ns name tail).transcript = t) ∧
    (validateNamespace ns = none → validatePodName name = none →
      validateContextName ctx = none →
      (DescribePod env t ctx ns name).transcript =
        record t (DescribePod env t ctx ns name).result) ∧
    (validateNamespace ns = some e ∨ validatePodName name = some e ∨
        validateContextName ctx = some e →
      (DescribePod env t ctx ns name).transcript = t) := by
  refine ⟨rfl, rfl, ?_, ?_, ?_, ?_, ?_, ?_, ?_, ?_, ?_, ?_, ?_, ?_⟩
  · intro h
    simp only [SetContext, h]
  · intro h
    simp [SetContext, h, invalidResult]
  · intro h
    simp only [ListNamespaces, withContext_ok _ _ h]
  · intro h
    simp only [ListNamespaces, withContext_err _ _ _ h]
  · intro h1 h2
    simp only [ListPods, h1, withContext_ok _ _ h2]
  · intro h
    rcases h with h | h
    · simp only [ListPods, h]
    · cases hns : validateNamespace ns with
      | some e2 => simp only [ListPods, hns]
      | none => simp only [ListPods, hns, withContext_err _ _ _ h]
  · intro h1 h2 h3
    simp only [DeletePod, h1, h2, withContext_ok _ _ h3]
  · intro h
    rcases h with h | h | h
    · simp only [DeletePod, h]
    · cases hns : validateNamespace ns with
      | some e2 => simp only [DeletePod, hns]
      | none => simp only [DeletePod, hns, h]
    · cases hns : validateNamespace ns with
      | some e2 => simp only [DeletePod, hns]
      | none =>
        cases hpn : validatePodName name with
        | some e2 => simp only [DeletePod, hns, hpn]
        | none => simp only [DeletePod, hns, hpn, withContext_err _ _ _ h]
  · intro h1 h2 h3
    simp only [GetPodLogs, h1, h2, withContext_ok _ _ h3]
  · intro h
    rcases h with h | h | h
    · simp only [GetPodLogs, h]
    · cases hns : validateNamespace ns with
      | some e2 => simp only [GetPodLogs, hns]
      | none => simp only [GetPodLogs, hns, h]
    · cases hns : validateNamespace ns with
      | some e2 => simp only [GetPodLogs, hns]
      | none =>
        cases hpn : validatePodName name with
        | some e2 => simp only [GetPodLogs, hns, hpn]
        | none => simp only [GetPodLogs, hns, hpn, withContext_err _ _ _ h]
  · intro h1 h2 h3
    simp only [DescribePod, h1, h2, withContext_ok _ _ h3]
  · intro h
    rcases h with h | h | h
    · simp only [DescribePod, h]
    · cases hns : validateNamespace ns with
      | some e2 => simp only [DescribePod, hns]
      | none => simp only [DescribePod, hns, h]
    · cases hns : validateNamespace ns with
      | some e2 => simp only [DescribePod, hns]
      | none =>
        cases hpn : validatePodName name with
        | some e2 => simp only [DescribePod, hns, hpn]
        | none => simp only [DescribePod, hns, hpn, withContext_err _ _ _ h]

/-- C1 counterexample: `DeletePod` with an invalid namespace produces an
envelope (exitCode -1) but returns with the transcript unchanged — the
envelope is not appended, so appending it would have changed the
transcript. -/
theorem deletePod_validation_failure_not_recorded :
    (DeletePod envNoop [] "" "Bad_NS" "api").result.exitCode = -1 ∧
    (DeletePod envNoop [] "" "Bad_NS" "api").transcript = [] ∧
    (DeletePod envNoop [] "" "Bad_NS" "api").transcript ≠
      record [] (DeletePod envNoop [] "" "Bad_NS" "api").result := by
  refine ⟨rfl, rfl, ?_⟩
  decide

theorem recorded_iff_validated_witness :
    validateContextName "prod" = none ∧
    (SetContext envNoop [] "prod").transcript =
      record [] (SetContext envNoop [] "prod").result ∧
    validateContextName "-bad" = some "invalid context name" ∧
    (SetContext envNoop [] "-bad").transcript = [] :=
  ⟨rfl,
    (recorded_iff_validated envNoop 0 [] "prod" "default" "api" 100
      "invalid context name").2.2.1 rfl,
    rfl,
    ((recorded_iff_validated envNoop 0 [] "-bad" "default" "api" 100
      "invalid context name").2.2.2.1 rfl).1⟩

/-! ## Spec-side status derivation (last container with a reason wins) -/

/-- A state detail's reason, when present and non-empty. -/
def nonEmptyReason (r : Option ReasonState) : Option String :=
  match r with
  | some st => if st.reason = "" then none else some st.reason
  | none => none

/-- The status override a single container contributes: its non-empty
terminated reason, else its non-empty waiting reason, else nothing. -/
def containerReason (cs : ContainerStatus) : Option String :=
  match nonEmptyReason cs.state.terminated with
  | some r => some r
  | none => nonEmptyReason cs.state.waiting

/-- The spec's status precedence: phase, overridden by a non-empty
status.reason, overridden by the last container with a reason. -/
def statusSpec (item : PodItem) : String :=
  let base := if item.status.reason ≠ "" then item.status.reason
    else item.status.phase
  match (item.status.containerStatuses.filterMap containerReason).getLast? with
  | some r => r
  | none => base

lemma podAccStep_status (a : Nat × Int × String) (cs : ContainerStatus) :
    (podAccStep a cs).2.2 =
      match containerReason cs with
      | some r => r
      | none => a.2.2 := by
  cases hterm : cs.state.terminated with
  | none =>
    cases hwait : cs.state.waiting with
    | none => simp [podAccStep, containerReason, nonEmptyReason, hterm, hwait]
    | some w =>
      by_cases hw : w.reason = "" <;>
        simp [podAccStep, containerReason, nonEmptyReason, hterm, hwait, hw]
  | some tm =>
    cases hwait : cs.state.waiting with
    | none =>
      by_cases ht : tm.reason = "" <;>
        simp [podAccStep, containerReason, nonEmptyReason, hterm, hwait, ht]
    | some w =>
      by_cases ht : tm.reason = "" <;> by_cases hw : w.reason = "" <;>
        simp [podAccStep, containerReason, nonEmptyReason, hterm, hwait, ht, hw]

lemma statusFold (l : List ContainerStatus) :
    ∀ a : Nat × Int × String,
      (l.foldl podAccStep a).2.2 =
        match (l.filterMap containerReason).getLast? with
        | some r => r
        | none => a.2.2 := by
  induction l with
  | nil => intro a; rfl
  | cons c l ih =>
    intro a
    rw [List.foldl_cons, ih (podAccStep a c), List.filterMap_cons]
    cases hc : containerReason c with
    | none => simp only [podAccStep_status, hc]
    | some r0 =>
      cases hl : l.filterMap containerReason with
      | nil => simp [podAccStep_status, hc]
      | cons y ys =>
        simp only [podAccStep_status, hc, List.getLast?_cons_cons]
        rcases List.eq_nil_or_concat (y :: ys) with h | ⟨L, b, h⟩
        · exact absurd h (List.cons_ne_nil y ys)
        · rw [List.concat_eq_append] at h
          rw [h, List.getLast?_concat]

def crashPodJson : String :=
  "\x7b\"items\":[\x7b\"metadata\":\x7b\"name\":\"api-1\"\x7d,\"status\":\x7b\"phase\":\"Running\",\"containerStatuses\":[\x7b\"ready\":true,\"restartCount\":0,\"state\":\x7b\x7d\x7d,\x7b\"ready\":false,\"restartCount\":3,\"state\":\x7b\"waiting\":\x7b\"reason\":\"CrashLoopBackOff\"\x7d\x7d\x7d]\x7d\x7d]\x7d"

set_option maxRecDepth 100000 in
/-- C3: the pod decoder derives `status` starting from `status.phase`,
overridden by a non-empty `status.reason`, then overridden by each
container's non-empty waiting reason and then non-empty terminated reason
in listed order — so the last container with a non-empty reason wins
(`statusSpec`); in particular a Running pod whose last container is
waiting with reason CrashLoopBackOff decodes to status CrashLoopBackOff. -/
theorem pod_status_precedence :
    (∀ (now : Int) (l : PodList),
      (podsOfList now l).map Pod.status = l.items.map statusSpec) ∧
    (parsePods 0 crashPodJson).map (List.map Pod.status) =
      .ok ["CrashLoopBackOff"] := by
  constructor
  · intro now l
    rw [podsOfList, List.map_map]
    refine List.map_congr_left (fun item _ => ?_)
    exact statusFold item.status.containerStatuses
      (0, 0, if item.status.reason ≠ "" then item.status.reason
        else item.status.phase)
  · rfl

/-- Spec-side age bucketing over whole seconds: the largest unit whose
exclusive upper bound exceeds the duration, truncated by integer
division. -/
def formatAgeSpec (sec : Nat) : String :=
  if sec < 60 then toString sec ++ "s"
  else if sec < 3600 then toString (sec / 60) ++ "m"
  else if sec < 86400 then toString (sec / 3600) ++ "h"
  else if sec < 604800 then toString (sec / 86400) ++ "d"
  else if sec < 2592000 then toString (sec / 604800) ++ "w"
  else toString (sec / 2592000) ++ "mo"

/-- C4: the claim's bucket table (`formatAgeSpec`, exclusive integer
thresholds, truncating integer division) describes the intent and matches
the code at the spec's examples, but the code's months bucket computes
`int(d.Hours()/(24*30))` in float64 and does not always truncate: for the
duration one nanosecond below 6*30 days the rounding in `Hours()` yields
exactly 4320.0, so the code prints "6mo" where integer truncation gives 5
months ("5mo"). -/
theorem formatAge_months_rounds_up :
    formatAge (6 * 30 * 86400 * 1000000000 - 1) = "6mo" ∧
    Int.tdiv (6 * 30 * 86400 * 1000000000 - 1)
      (30 * 86400 * 1000000000) = 5 ∧
    formatAgeSpec ((6 * 30 * 86400 * 1000000000 - 1) / 1000000000) = "5mo" ∧
    formatAge (45 * 1000000000) = "45s" ∧
    formatAge (90 * 1000000000) = "1m" ∧
    formatAge (25 * 3600 * 1000000000) = "1d" ∧
    formatAge (10 * 86400 * 1000000000) = "1w" ∧
    formatAge (40 * 86400 * 1000000000) = "1mo" ∧
    formatAge (30 * 86400 * 1000000000 - 1) = "4w" ∧
    formatAge (5 * 30 * 86400 * 1000000000 - 1) = "4mo" := by
  refine ⟨by decide, by decide, by decide, by decide, by decide, by decide,
    by decide, by decide, by decide, by decide⟩

lemma runKubectl_parsedData (env : ProcEnv) (args : List String)
    (timeout : Nat) : (runKubectl env args timeout).parsedData = none := rfl

lemma parseContexts_jsonError (s e : String) (h : jsonParse s = .error e) :
    parseContexts s = .error e := by
  unfold parseContexts
  rw [h]
  rfl

lemma parseNamespaces_jsonError (s e : String) (h : jsonParse s = .error e) :
    parseNamespaces s = .error e := by
  unfold parseNamespaces
  rw [h]
  rfl

lemma parsePods_jsonError (now : Int) (s e : String)
    (h : jsonParse s = .error e) : parsePods now s = .error e := by
  unfold parsePods
  rw [h]
  rfl

/-- C7: when a list operation's process exits 0 but its stdout is
malformed JSON, the envelope keeps exit code 0, keeps the original stdout,
gets a "parse error: <detail>" line appended to stderr, and has no parsed
data. -/
theorem parse_error_keeps_success (env : ProcEnv) (now : Int)
    (t : List CommandResult) (ctx ns : String) (e : String)
    (hctx : validateContextName ctx = none)
    (hns : validateNamespace ns = none) :
    ((runKubectl env ["config", "view", "-o", "json"] defaultTimeout).exitCode
        = 0 →
      jsonParse (runKubectl env ["config", "view", "-o", "json"]
        defaultTimeout).stdout = .error e →
      (ListContexts env t).result.exitCode = 0 ∧
      (ListContexts env t).result.stdout =
        (runKubectl env ["config", "view", "-o", "json"]
          defaultTimeout).stdout ∧
      (ListContexts env t).result.parsedData = none ∧
      (ListContexts env t).result.stderr =
        (appendParseError (runKubectl env ["config", "view", "-o", "json"]
          defaultTimeout) e).stderr) ∧
    ((runKubectl env (ctxArgs ctx ++ ["get", "ns", "-o", "json"])
        defaultTimeout).exitCode = 0 →
      jsonParse (runKubectl env (ctxArgs ctx ++ ["get", "ns", "-o", "json"])
        defaultTimeout).stdout = .error e →
      (ListNamespaces env t ctx).result.exitCode = 0 ∧
      (ListNamespaces env t ctx).result.stdout =
        (runKubectl env (ctxArgs ctx ++ ["get", "ns", "-o", "json"])
          defaultTimeout).stdout ∧
      (ListNamespaces env t ctx).result.parsedData = none ∧
      (ListNamespaces env t ctx).result.stderr =
        (appendParseError (runKubectl env
          (ctxArgs ctx ++ ["get", "ns", "-o", "json"]) defaultTimeout)
          e).stderr) ∧
    ((runKubectl env (ctxArgs ctx ++ ["get", "pods", "-n", ns, "-o", "json"])
        defaultTimeout).exitCode = 0 →
      jsonParse (runKubectl env
        (ctxArgs ctx ++ ["get", "pods", "-n", ns, "-o", "json"])
        defaultTimeout).stdout = .error e →
      (ListPods env now t ctx ns).result.exitCode = 0 ∧
      (ListPods env now t ctx ns).result.stdout =
        (runKubectl env
          (ctxArgs ctx ++ ["get", "pods", "-n", ns, "-o", "json"])
          defaultTimeout).stdout ∧
      (ListPods env now t ctx ns).result.parsedData = none ∧
      (ListPods env now t ctx ns).result.stderr =
        (appendParseError (runKubectl env
          (ctxArgs ctx ++ ["get", "pods", "-n", ns, "-o", "json"])
          defaultTimeout) e).stderr) := by
  refine ⟨?_, ?_, ?_⟩
  · intro hexit hjson
    have hres : (ListContexts env t).result =
        appendParseError (runKubectl env ["config", "view", "-o", "json"]
          defaultTimeout) e := by
      simp only [ListContexts, hexit, parseContexts_jsonError _ _ hjson]
      simp
    exact ⟨by rw [hres]; exact hexit, by rw [hres]; rfl,
      by rw [hres]
         exact runKubectl_parsedData env ["config", "view", "-o", "json"] defaultTimeout,
      by rw [hres]⟩
  · intro hexit hjson
    have hres : (ListNamespaces env t ctx).result =
        appendParseError (runKubectl env
          (ctxArgs ctx ++ ["get", "ns", "-o", "json"]) defaultTimeout) e := by
      simp only [ListNamespaces, withContext_ok _ _ hctx, hexit,
        parseNamespaces_jsonError _ _ hjson]
      simp
    exact ⟨by rw [hres]; exact hexit, by rw [hres]; rfl,
      by rw [hres]
         exact runKubectl_parsedData env (ctxArgs ctx ++ ["get", "ns", "-o", "json"]) defaultTimeout,
      by rw [hres]⟩
  · intro hexit hjson
    have hres : (ListPods env now t ctx ns).result =
        appendParseError (runKubectl env
          (ctxArgs ctx ++ ["get", "pods", "-n", ns, "-o", "json"])
          defaultTimeout) e := by
      simp only [ListPods, hns, withContext_ok _ _ hctx, hexit,
        parsePods_jsonError _ _ _ hjson]
      simp
    exact ⟨by rw [hres]; exact hexit, by rw [hres]; rfl,
      by rw [hres]
         exact runKubectl_parsedData env (ctxArgs ctx ++ ["get", "pods", "-n", ns, "-o", "json"]) defaultTimeout,
      by rw [hres]⟩

theorem parse_error_keeps_success_witness :
    (runKubectl envBadJson ["config", "view", "-o", "json"]
      defaultTimeout).exitCode = 0 ∧
    jsonParse "oops" =
      .error "invalid character looking for beginning of value" ∧
    (ListContexts envBadJson []).result.exitCode = 0 ∧
    (ListContexts envBadJson []).result.stdout = "oops" ∧
    (ListContexts envBadJson []).result.parsedData = none ∧
    (ListContexts envBadJson []).result.stderr =
      "parse error: invalid character looking for beginning of value" :=
  ⟨rfl, rfl,
    ((parse_error_keeps_success envBadJson 0 [] "" "default"
      "invalid character looking for beginning of value" rfl rfl).1
      rfl rfl).1,
    ((parse_error_keeps_success envBadJson 0 [] "" "default"
      "invalid character looking for beginning of value" rfl rfl).1
      rfl rfl).2.1,
    ((parse_error_keeps_success envBadJson 0 [] "" "default"
      "invalid character looking for beginning of value" rfl rfl).1
      rfl rfl).2.2.1,
    ((parse_error_keeps_success envBadJson 0 [] "" "default"
      "invalid character looking for beginning of value" rfl rfl).1
      rfl rfl).2.2.2⟩

lemma foldlM_ok_id {α : Type} (step : α → String × Json → Except String α)
    (fs : List (String × Json)) :
    ∀ acc : α, (∀ kv ∈ fs, ∀ a : α, step a kv = .ok a) →
      fs.foldlM step acc = .ok acc := by
  induction fs with
  | nil => intro acc _; rfl
  | cons kv fs ih =>
    intro acc h
    have hstep : step acc kv = .ok acc := h kv (List.mem_cons_self kv fs) acc
    show step acc kv >>= (fs.foldlM step) = .ok acc
    rw [hstep]
    show fs.foldlM step acc = .ok acc
    exact ih acc (fun kv2 hkv2 a => h kv2 (List.mem_cons_of_mem kv hkv2) a)

lemma nsList_step_id (l : NamespaceList) (k : String) (v : Json)
    (h : keyMatches k "items" = false ∨ v = Json.null) :
    NamespaceList.step l k v = .ok l := by
  rcases h with h | h
  · simp [NamespaceList.step, h]
  · subst h
    unfold NamespaceList.step
    cases hk : keyMatches k "items" <;> rfl

lemma podList_step_id (l : PodList) (k : String) (v : Json)
    (h : keyMatches k "items" = false ∨ v = Json.null) :
    PodList.step l k v = .ok l := by
  rcases h with h | h
  · simp [PodList.step, h]
  · subst h
    unfold PodList.step
    cases hk : keyMatches k "items" <;> rfl

lemma kubeConfigView_step_id (w : KubeConfigView) (k : String) (v : Json)
    (h : keyMatches k "contexts" = false ∨ v = Json.null) :
    KubeConfigView.step w k v = .ok w := by
  rcases h with h | h
  · simp [KubeConfigView.step, h]
  · subst h
    unfold KubeConfigView.step
    cases hk : keyMatches k "contexts" <;> rfl

/-- C10 counterexample: `"[]"` is valid JSON of unexpected shape, yet the
decoders return a parse error rather than an empty list (Go cannot
unmarshal an array into the list structs). -/
theorem valid_json_unexpected_shape_errors :
    jsonParse "[]" = .ok (.arr []) ∧
    parseNamespaces "[]" =
      .error "json: cannot unmarshal array into Go value of type namespaceList" ∧
    parseContexts "[]" =
      .error "json: cannot unmarshal array into Go value of type kubeConfigView" ∧
    parsePods 0 "[]" =
      .error "json: cannot unmarshal array into Go value of type podList" :=
  ⟨rfl, rfl, rfl, rfl⟩

/-- C10 (amended): for JSON `null` and for objects whose items/contexts
field is absent (no matching key) or null, the decoders succeed with an
empty list; on a 0-exit process with such stdout the envelope's parsedData
is the empty list and stderr gets no parse-error diagnostic. -/
theorem empty_shape_decodes_empty (env : ProcEnv) (now : Int)
    (t : List CommandResult) (fs : List (String × Json)) :
    decNamespaceList NamespaceList.zero Json.null = .ok NamespaceList.zero ∧
    decKubeConfigView KubeConfigView.zero Json.null = .ok KubeConfigView.zero ∧
    decPodList PodList.zero Json.null = .ok PodList.zero ∧
    ((∀ kv ∈ fs, keyMatches kv.1 "items" = false ∨ kv.2 = Json.null) →
      decNamespaceList NamespaceList.zero (Json.obj fs) =
        .ok NamespaceList.zero) ∧
    ((∀ kv ∈ fs, keyMatches kv.1 "items" = false ∨ kv.2 = Json.null) →
      decPodList PodList.zero (Json.obj fs) = .ok PodList.zero) ∧
    ((∀ kv ∈ fs, keyMatches kv.1 "contexts" = false ∨ kv.2 = Json.null) →
      decKubeConfigView KubeConfigView.zero (Json.obj fs) =
        .ok KubeConfigView.zero) ∧
    (parseNamespaces "null" = .ok [] ∧ parseNamespaces "\x7b\x7d" = .ok []) ∧
    (parseContexts "null" = .ok [] ∧ parseContexts "\x7b\x7d" = .ok []) ∧
    (parsePods now "null" = .ok [] ∧ parsePods now "\x7b\x7d" = .ok []) ∧
    ((runKubectl env ["get", "ns", "-o", "json"] defaultTimeout).exitCode = 0 →
      (runKubectl env ["get", "ns", "-o", "json"] defaultTimeout).stdout =
        "null" →
      (ListNamespaces env t "").result.parsedData =
        some (.namespaces []) ∧
      (ListNamespaces env t "").result.stderr =
        (runKubectl env ["get", "ns", "-o", "json"] defaultTimeout).stderr) := by
  refine ⟨rfl, rfl, rfl, ?_, ?_, ?_, ⟨rfl, rfl⟩, ⟨rfl, rfl⟩, ⟨rfl, rfl⟩, ?_⟩
  · intro h
    exact foldlM_ok_id _ fs NamespaceList.zero
      (fun kv hkv a => nsList_step_id a kv.1 kv.2 (h kv hkv))
  · intro h
    exact foldlM_ok_id _ fs PodList.zero
      (fun kv hkv a => podList_step_id a kv.1 kv.2 (h kv hkv))
  · intro h
    exact foldlM_ok_id _ fs KubeConfigView.zero
      (fun kv hkv a => kubeConfigView_step_id a kv.1 kv.2 (h kv hkv))
  · intro hexit hstdout
    have hres : (ListNamespaces env t "").result =
        { runKubectl env ["get", "ns", "-o", "json"] defaultTimeout with
            parsedData := some (.namespaces []) } := by
      have hpn : parseNamespaces "null" = Except.ok ([] : List KNamespace) :=
        rfl
      simp only [ListNamespaces,
        withContext_ok _ _ (rfl : validateContextName "" = none)]
      rw [show ctxArgs "" ++ ["get", "ns", "-o", "json"] =
        ["get", "ns", "-o", "json"] from rfl]
      simp only [hexit, hstdout, hpn]
      simp
    exact ⟨by rw [hres], by rw [hres]⟩

theorem empty_shape_decodes_empty_witness :
    (runKubectl envNullJson ["get", "ns", "-o", "json"]
      defaultTimeout).exitCode = 0 ∧
    (runKubectl envNullJson ["get", "ns", "-o", "json"]
      defaultTimeout).stdout = "null" ∧
    (ListNamespaces envNullJson [] "").result.parsedData =
      some (.namespaces []) ∧
    (ListNamespaces envNullJson [] "").result.stderr = "" :=
  ⟨rfl, rfl,
    ((empty_shape_decodes_empty envNullJson 0 [] []).2.2.2.2.2.2.2.2.2
      rfl rfl).1,
    ((empty_shape_decodes_empty envNullJson 0 [] []).2.2.2.2.2.2.2.2.2
      rfl rfl).2⟩

end KubectlUI
